import Mathlib

/-!
Shallow embedding of the fastmail-mcp repository: the ICS (iCalendar) event
parser from caldav-client.ts, the JMAP batched-request builders from
jmap-client.ts, and the tool-dispatch argument checks and error wrapping from
the server entry point.  Strings are modelled as lists of characters and a
VEVENT text is modelled as its list of physical lines (the source regexes all
work line-by-line via the multiline flag, with the dot not matching a line
break).
-/

/-- Character class of the source regex digit `\d` restricted to ASCII. -/
def isDigitChar (c : Char) : Bool := '0' ≤ c && c ≤ '9'

/-- Whitespace class of the source regex `\s` (ASCII part). -/
def isJsSpace (c : Char) : Bool :=
  c = ' ' || c = '\t' || c = '\n' || c = '\r' || c = '\x0B' || c = '\x0C'

/-- Removes the list `p` from the front of `l`, if it is there (the anchored
prefix part `^PROP` of the property regexes in caldav-client.ts). -/
def stripStart : List Char → List Char → Option (List Char)
  | [], l => some l
  | _ :: _, [] => none
  | p :: ps, c :: cs => if c = p then stripStart ps cs else none

/-- Matches the regex `^PROP[;:](.*)$` of `extractProp` and `extractAttendees`
in caldav-client.ts against one physical line: the line must start with the
property name followed by a semicolon or colon, and the rest of the line is
captured. -/
def matchPropLine (prop line : List Char) : Option (List Char) :=
  match stripStart prop line with
  | none => none
  | some rest =>
    match rest with
    | [] => none
    | c :: r => if c = ';' || c = ':' then some r else none

/-- First replacement of `unfoldICS` in caldav-client.ts: the global
left-to-right substitution `replace(/\r?\n[ \t]/g, '')`. -/
def removeFolds : List Char → List Char
  | '\r' :: '\n' :: c :: rest =>
    if c = ' ' || c = '\t' then removeFolds rest
    else '\r' :: removeFolds ('\n' :: c :: rest)
  | '\n' :: c :: rest =>
    if c = ' ' || c = '\t' then removeFolds rest
    else '\n' :: removeFolds (c :: rest)
  | c :: rest => c :: removeFolds rest
  | [] => []

/-- Second replacement of `unfoldICS`: `replace(/\\n/g, '\n')`. -/
def unescapeNewline : List Char → List Char
  | '\\' :: 'n' :: rest => '\n' :: unescapeNewline rest
  | c :: rest => c :: unescapeNewline rest
  | [] => []

/-- Third replacement of `unfoldICS`: `replace(/\\,/g, ',')`. -/
def unescapeComma : List Char → List Char
  | '\\' :: ',' :: rest => ',' :: unescapeComma rest
  | c :: rest => c :: unescapeComma rest
  | [] => []

/-- The `unfoldICS` helper of caldav-client.ts: the three global replacements
in source order. -/
def unfoldICS (value : List Char) : List Char :=
  unescapeComma (unescapeNewline (removeFolds value))

/-- The date-property branch of `extractProp`: `raw.indexOf(':')` followed by
`substring(colonIdx + 1)` when a colon is present, the raw text otherwise. -/
def afterFirstColon (raw : List Char) : List Char :=
  match raw.dropWhile (fun c => !(c == ':')) with
  | [] => raw
  | _ :: rest => rest

/-- The date-property test of `extractProp`:
`prop.startsWith('DT') || prop === 'CREATED' || prop === 'LAST-MODIFIED'`. -/
def isDatePropName (prop : List Char) : Bool :=
  (stripStart ['D', 'T'] prop).isSome
    || prop == "CREATED".data || prop == "LAST-MODIFIED".data

/-- The `extractProp` function of caldav-client.ts on a VEVENT given as its
list of physical lines: the first line matching `^PROP[;:](.*)$` is captured;
for date-typed properties the text after the first colon of the capture is
returned, otherwise the capture is run through `unfoldICS`. -/
def extractProp (vevent : List (List Char)) (prop : List Char) : Option (List Char) :=
  match vevent.findSome? (matchPropLine prop) with
  | none => none
  | some raw =>
    if isDatePropName prop then some (afterFirstColon raw)
    else some (unfoldICS raw)

/-- The anchored regex `^(\d{4})(\d{2})(\d{2})T(\d{2})(\d{2})(\d{2})(Z?)$` of
`formatICSDate`, returning the seven capture groups on a match. -/
def matchICSDateTime (cs : List Char) :
    Option (List Char × List Char × List Char × List Char × List Char × List Char × List Char) :=
  match cs with
  | [y1, y2, y3, y4, mo1, mo2, d1, d2, t, h1, h2, mi1, mi2, s1, s2] =>
    if ([y1, y2, y3, y4, mo1, mo2, d1, d2, h1, h2, mi1, mi2, s1, s2].all isDigitChar)
        && t = 'T' then
      some ([y1, y2, y3, y4], [mo1, mo2], [d1, d2], [h1, h2], [mi1, mi2], [s1, s2], [])
    else none
  | [y1, y2, y3, y4, mo1, mo2, d1, d2, t, h1, h2, mi1, mi2, s1, s2, z] =>
    if ([y1, y2, y3, y4, mo1, mo2, d1, d2, h1, h2, mi1, mi2, s1, s2].all isDigitChar)
        && t = 'T' && z = 'Z' then
      some ([y1, y2, y3, y4], [mo1, mo2], [d1, d2], [h1, h2], [mi1, mi2], [s1, s2], ['Z'])
    else none
  | _ => none

/-- The `formatICSDate` function of caldav-client.ts: empty input passes
through, input containing a hyphen passes through, an 8-character input is
rebuilt with hyphens via slices, a datetime matching the anchored regex is
rebuilt with hyphens and colons, and anything else passes through. -/
def formatICSDate (icsDate : List Char) : List Char :=
  if icsDate = [] then []
  else if icsDate.contains '-' then icsDate
  else if icsDate.length = 8 then
    icsDate.take 4 ++ '-' :: (icsDate.drop 4).take 2 ++ '-' :: (icsDate.drop 6).take 2
  else
    match matchICSDateTime icsDate with
    | some (y, mo, d, h, mi, s, z) =>
      y ++ '-' :: mo ++ '-' :: d ++ 'T' :: h ++ ':' :: mi ++ ':' :: s ++ z
    | none => icsDate

/-- Attendee record of `extractAttendees`: a mandatory email and an optional
display name. -/
structure AttendeeEntry where
  email : List Char
  name : Option (List Char)
deriving Repr, DecidableEq

/-- Case-insensitive anchored match of a lowercase pattern at the head of the
text (the `i`-flagged regexes of `extractAttendees`). -/
def matchCI : List Char → List Char → Bool
  | [], _ => true
  | _ :: _, [] => false
  | p :: ps, c :: cs => (c.toLower == p) && matchCI ps cs

/-- The regex `/mailto:([^\s;]+)/i` of `extractAttendees`: the first position
where `mailto:` matches case-insensitively and is followed by at least one
character that is neither whitespace nor a semicolon yields the maximal such
run. -/
def findMailto : List Char → Option (List Char)
  | [] => none
  | c :: rest =>
    if matchCI "mailto:".data (c :: rest) then
      let e := ((c :: rest).drop 7).takeWhile (fun ch => !(isJsSpace ch) && !(ch == ';'))
      if e = [] then findMailto rest else some e
    else findMailto rest

/-- The regex `/CN=([^;:]+)/i` of `extractAttendees`: the first position where
`CN=` matches case-insensitively and is followed by at least one character
that is neither a semicolon nor a colon yields the maximal such run. -/
def findCN : List Char → Option (List Char)
  | [] => none
  | c :: rest =>
    if matchCI "cn=".data (c :: rest) then
      let v := ((c :: rest).drop 3).takeWhile (fun ch => !(ch == ';') && !(ch == ':'))
      if v = [] then findCN rest else some v
    else findCN rest

/-- Body of the `while` loop of `extractAttendees` for one matched ATTENDEE
line (the capture after the separator): a line with no mailto address
contributes nothing, otherwise the email and the optional CN name are
recorded. -/
def attendeeOfLine (line : List Char) : Option AttendeeEntry :=
  match findMailto line with
  | none => none
  | some e => some ⟨e, findCN line⟩

/-- The `extractAttendees` function of caldav-client.ts on the list of
physical lines: every line matching `^ATTENDEE[;:](.*?)$` is scanned, in
order. -/
def extractAttendees (vevent : List (List Char)) : List AttendeeEntry :=
  vevent.filterMap (fun line =>
    match matchPropLine "ATTENDEE".data line with
    | none => none
    | some rest => attendeeOfLine rest)

/-- The regex `/BEGIN:VEVENT[\s\S]*?END:VEVENT/` of `parseICS`, on the lines
model: collect lines through the first `END:VEVENT` line, failing when the
terminator is absent. -/
def takeThroughEndVevent : List (List Char) → Option (List (List Char))
  | [] => none
  | l :: rest =>
    if l = "END:VEVENT".data then some [l]
    else
      match takeThroughEndVevent rest with
      | none => none
      | some ls => some (l :: ls)

/-- First VEVENT block of a calendar object: from the first `BEGIN:VEVENT`
line through the first following `END:VEVENT` line, inclusive. -/
def firstVevent (lines : List (List Char)) : Option (List (List Char)) :=
  match lines.dropWhile (fun l => !(l == "BEGIN:VEVENT".data)) with
  | [] => none
  | b :: rest =>
    match takeThroughEndVevent rest with
    | none => none
    | some ls => some (b :: ls)

/-- Normalized event produced by `parseICS` in caldav-client.ts.  The source
field named end is called endTime here because end is a Lean keyword. -/
structure CalendarEvent where
  id : List Char
  title : List Char
  description : List Char
  start : List Char
  endTime : List Char
  location : List Char
  participants : List AttendeeEntry
deriving Repr, DecidableEq

/-- JavaScript `x || d` on a nullable string: both a missing value and the
empty string fall back to the default. -/
def jsOr (v : Option (List Char)) (d : List Char) : List Char :=
  match v with
  | none => d
  | some [] => d
  | some s => s

/-- The `parseICS` function of caldav-client.ts on the lines model: no VEVENT
block means no event, otherwise each field is extracted with its source
default. -/
def parseICS (icsData : List (List Char)) : Option CalendarEvent :=
  match firstVevent icsData with
  | none => none
  | some vevent =>
    some
      { id := jsOr (extractProp vevent "UID".data) []
        title := jsOr (extractProp vevent "SUMMARY".data) "Untitled".data
        description := jsOr (extractProp vevent "DESCRIPTION".data) []
        start := formatICSDate (jsOr (extractProp vevent "DTSTART".data) [])
        endTime := formatICSDate (jsOr (extractProp vevent "DTEND".data) [])
        location := jsOr (extractProp vevent "LOCATION".data) []
        participants := extractAttendees vevent }

/-- Core of `getCalendarEvents` in caldav-client.ts after the calendar objects
of every targeted calendar have been fetched: parse each object, collect the
events of all calendars, sort them ascending by the start timestamp, then
slice to the limit.  The JavaScript `new Date(event.start).getTime()` is
modelled by the abstract integer key `startKey`, and the stable
comparator-based sort by a stable merge sort on that key. -/
def getCalendarEventsModel (calendarObjects : List (List (List (List Char))))
    (limit : Nat) (startKey : CalendarEvent → Int) : List CalendarEvent :=
  (((calendarObjects.map (fun objs => objs.filterMap parseICS)).flatten).mergeSort
    (fun a b => startKey a ≤ startKey b)).take limit

/-- Back-reference marker placed in a call argument object, as in
`resultOf: 'query', name: 'Email/query', path: '/ids'`. -/
structure BackRef where
  resultOf : String
  name : String
  path : String
deriving Repr, DecidableEq

/-- One element of a JMAP `sort` array. -/
structure SortSpec where
  property : String
  isAscending : Bool
deriving Repr, DecidableEq

/-- Filter object assembled by `advancedSearch` in jmap-client.ts. -/
structure AdvFilter where
  text : Option String
  fromAddr : Option String
  toAddr : Option String
  subject : Option String
  hasAttachment : Option Bool
  hasKeyword : Option String
  notKeyword : Option String
  inMailbox : Option String
  after : Option String
  before : Option String
deriving Repr, DecidableEq

/-- Filter argument of an `Email/query` call as built in jmap-client.ts:
either the empty object, an `inMailbox` restriction, or the advanced-search
filter. -/
inductive FilterObj
  | emptyFilter
  | inMailbox (id : String)
  | advanced (f : AdvFilter)
deriving Repr, DecidableEq

/-- Argument object of an `Email/query` method call. -/
structure EmailQueryArgs where
  accountId : String
  filter : FilterObj
  sort : List SortSpec
  limit : Int
deriving Repr, DecidableEq

/-- Argument object of an `Email/get` method call: ids are given either as a
back-reference (the chained form `#ids`) or literally. -/
structure EmailGetArgs where
  accountId : String
  idsRef : Option BackRef
  ids : Option (List String)
  properties : List String
deriving Repr, DecidableEq

/-- One update entry of an `Email/set` call: the bulk operations patch either
the keywords or the mailbox membership of an email. -/
inductive EmailUpdate
  | setKeywords (kw : List (String × Bool))
  | setMailboxIds (mb : List (String × Bool))
deriving Repr, DecidableEq

/-- Argument object of an `Email/set` update call; the update map is the
ordered list of id-to-patch assignments the source loop produces. -/
structure EmailSetArgs where
  accountId : String
  update : List (String × EmailUpdate)
deriving Repr, DecidableEq

/-- Argument object of a method call, by method kind. -/
inductive JmapArgs
  | query (a : EmailQueryArgs)
  | get (a : EmailGetArgs)
  | set (a : EmailSetArgs)
deriving Repr, DecidableEq

/-- One JMAP method call: the named triple of method name, argument object
and client-chosen call id. -/
structure MethodCall where
  name : String
  args : JmapArgs
  callId : String
deriving Repr, DecidableEq

/-- One JMAP batch request: capability URNs plus the ordered call list. -/
structure JmapRequest where
  usingCaps : List String
  methodCalls : List MethodCall
deriving Repr, DecidableEq

/-- The request built by `JmapClient.getEmails`: an `Email/query` filtered to
the optional mailbox and carrying the caller limit unchanged, chained into an
`Email/get` whose ids back-reference the query result. -/
def getEmailsRequest (accountId : String) (mailboxId : Option String) (limit : Int) :
    JmapRequest :=
  { usingCaps := ["urn:ietf:params:jmap:core", "urn:ietf:params:jmap:mail"]
    methodCalls :=
      [⟨"Email/query",
        .query
          { accountId := accountId
            filter := match mailboxId with
              | some m => .inMailbox m
              | none => .emptyFilter
            sort := [⟨"receivedAt", false⟩]
            limit := limit },
        "query"⟩,
       ⟨"Email/get",
        .get
          { accountId := accountId
            idsRef := some ⟨"query", "Email/query", "/ids"⟩
            ids := none
            properties :=
              ["id", "subject", "from", "to", "receivedAt", "preview", "hasAttachment"] },
        "emails"⟩] }

/-- The request built by `JmapClient.getRecentEmails` once the target mailbox
has been resolved: the transmitted limit is `Math.min(limit, 50)`. -/
def getRecentEmailsRequest (accountId : String) (targetMailboxId : String) (limit : Int) :
    JmapRequest :=
  { usingCaps := ["urn:ietf:params:jmap:core", "urn:ietf:params:jmap:mail"]
    methodCalls :=
      [⟨"Email/query",
        .query
          { accountId := accountId
            filter := .inMailbox targetMailboxId
            sort := [⟨"receivedAt", false⟩]
            limit := min limit 50 },
        "query"⟩,
       ⟨"Email/get",
        .get
          { accountId := accountId
            idsRef := some ⟨"query", "Email/query", "/ids"⟩
            ids := none
            properties :=
              ["id", "subject", "from", "to", "receivedAt", "preview", "hasAttachment",
               "keywords"] },
        "emails"⟩] }

/-- Caller-supplied filters of `advancedSearch`, mirroring the source
parameter object; the source fields from and to are called fromAddr and
toAddr because from is a Lean keyword. -/
structure AdvSearchParams where
  query : Option String
  fromAddr : Option String
  toAddr : Option String
  subject : Option String
  hasAttachment : Option Bool
  isUnread : Option Bool
  mailboxId : Option String
  after : Option String
  before : Option String
  limit : Option Int
deriving Repr, DecidableEq

/-- JavaScript truthiness guard `if (filters.x) filter.y = filters.x` on a
string: a missing value and the empty string are both skipped. -/
def truthyStr : Option String → Option String
  | none => none
  | some s => if s = "" then none else some s

/-- The filter-assembly block of `advancedSearch` in jmap-client.ts, including
the `isUnread` special case that deletes `hasKeyword` and sets
`notKeyword` when `isUnread === true`. -/
def buildAdvFilter (p : AdvSearchParams) : AdvFilter :=
  { text := truthyStr p.query
    fromAddr := truthyStr p.fromAddr
    toAddr := truthyStr p.toAddr
    subject := truthyStr p.subject
    hasAttachment := p.hasAttachment
    hasKeyword := match p.isUnread with
      | none => none
      | some true => none
      | some false => some "$seen"
    notKeyword := match p.isUnread with
      | some true => some "$seen"
      | _ => none
    inMailbox := truthyStr p.mailboxId
    after := truthyStr p.after
    before := truthyStr p.before }

/-- The transmitted limit of `advancedSearch`:
`Math.min(filters.limit || 50, 100)`, where the JavaScript `||` sends a
missing or zero limit to the fallback 50. -/
def advancedSearchQueryLimit (limit : Option Int) : Int :=
  min (match limit with
    | none => 50
    | some v => if v = 0 then 50 else v) 100

/-- The request built by `JmapClient.advancedSearch`. -/
def advancedSearchRequest (accountId : String) (p : AdvSearchParams) : JmapRequest :=
  { usingCaps := ["urn:ietf:params:jmap:core", "urn:ietf:params:jmap:mail"]
    methodCalls :=
      [⟨"Email/query",
        .query
          { accountId := accountId
            filter := .advanced (buildAdvFilter p)
            sort := [⟨"receivedAt", false⟩]
            limit := advancedSearchQueryLimit p.limit },
        "query"⟩,
       ⟨"Email/get",
        .get
          { accountId := accountId
            idsRef := some ⟨"query", "Email/query", "/ids"⟩
            ids := none
            properties :=
              ["id", "subject", "from", "to", "cc", "receivedAt", "preview", "hasAttachment",
               "keywords", "threadId"] },
        "emails"⟩] }

/-- Reads the limit transmitted in the leading `Email/query` call of a
request, when there is one. -/
def transmittedLimit (r : JmapRequest) : Option Int :=
  match r.methodCalls with
  | ⟨_, .query a, _⟩ :: _ => some a.limit
  | _ => none

/-- Update map built by `JmapClient.bulkMarkRead`: every id receives the same
keywords patch, `$seen: true` when marking read and the empty object when
marking unread. -/
def bulkMarkReadUpdates (emailIds : List String) (read : Bool) :
    List (String × EmailUpdate) :=
  emailIds.map (fun id =>
    (id, EmailUpdate.setKeywords (if read then [("$seen", true)] else [])))

/-- The single-call request built by `JmapClient.bulkMarkRead`. -/
def bulkMarkReadRequest (accountId : String) (emailIds : List String) (read : Bool) :
    JmapRequest :=
  { usingCaps := ["urn:ietf:params:jmap:core", "urn:ietf:params:jmap:mail"]
    methodCalls :=
      [⟨"Email/set", .set ⟨accountId, bulkMarkReadUpdates emailIds read⟩, "bulkUpdate"⟩] }

/-- Update map built by `JmapClient.bulkMove`: every id receives the same
mailbox membership patch. -/
def bulkMoveUpdates (emailIds : List String) (targetMailboxId : String) :
    List (String × EmailUpdate) :=
  emailIds.map (fun id => (id, EmailUpdate.setMailboxIds [(targetMailboxId, true)]))

/-- The single-call request built by `JmapClient.bulkMove`. -/
def bulkMoveRequest (accountId : String) (emailIds : List String)
    (targetMailboxId : String) : JmapRequest :=
  { usingCaps := ["urn:ietf:params:jmap:core", "urn:ietf:params:jmap:mail"]
    methodCalls :=
      [⟨"Email/set", .set ⟨accountId, bulkMoveUpdates emailIds targetMailboxId⟩,
        "bulkMove"⟩] }

/-- The single-call request built by `JmapClient.bulkDelete` once the trash
mailbox id has been resolved: the same mailbox patch to trash for every id. -/
def bulkDeleteRequest (accountId : String) (emailIds : List String)
    (trashMailboxId : String) : JmapRequest :=
  { usingCaps := ["urn:ietf:params:jmap:core", "urn:ietf:params:jmap:mail"]
    methodCalls :=
      [⟨"Email/set", .set ⟨accountId, bulkMoveUpdates emailIds trashMailboxId⟩,
        "bulkDelete"⟩] }

/-- Error codes of the MCP errors thrown by the tool dispatcher. -/
inductive ErrorCode
  | invalidParams
  | internalError
  | methodNotFound
deriving Repr, DecidableEq

/-- A structured user-facing error. -/
structure McpError where
  code : ErrorCode
  message : String
deriving Repr, DecidableEq

/-- Outcome of the pure argument-validation stage of one dispatcher case:
either an error thrown before the backend client is invoked, or the
invocation of the backend call that performs the network traffic. -/
inductive ToolStep (β : Type)
  | earlyError (e : McpError)
  | backendCall (call : β)
deriving Repr, DecidableEq

/-- JavaScript falsiness of an optional string argument: missing or empty. -/
def falsyStr : Option String → Bool
  | none => true
  | some s => s == ""

/-- Arguments of the send_email tool, as destructured by the dispatcher; the
source field named to is called toAddrs here because to is a Lean token. -/
structure SendEmailToolArgs where
  toAddrs : Option (List String)
  cc : Option (List String)
  bcc : Option (List String)
  fromAddr : Option String
  mailboxId : Option String
  subject : Option String
  textBody : Option String
  htmlBody : Option String
deriving Repr, DecidableEq

/-- The validation sequence of the send_email dispatcher case: the three
required-argument checks run in source order before `client.sendEmail` is
invoked. -/
def sendEmailCase (a : SendEmailToolArgs) : ToolStep SendEmailToolArgs :=
  if a.toAddrs.isNone || (a.toAddrs.getD []).isEmpty then
    .earlyError ⟨.invalidParams, "to field is required and must be a non-empty array"⟩
  else if falsyStr a.subject then
    .earlyError ⟨.invalidParams, "subject is required"⟩
  else if falsyStr a.textBody && falsyStr a.htmlBody then
    .earlyError ⟨.invalidParams, "Either textBody or htmlBody is required"⟩
  else
    .backendCall a

/-- Arguments shared by the three bulk tools. -/
structure BulkToolArgs where
  emailIds : Option (List String)
  read : Bool
  targetMailboxId : Option String
deriving Repr, DecidableEq

/-- The emptiness check `!emailIds || !Array.isArray(emailIds) ||
emailIds.length === 0` shared by the bulk dispatcher cases. -/
def emptyIds (ids : Option (List String)) : Bool :=
  ids.isNone || (ids.getD []).isEmpty

/-- The validation sequence of the bulk_mark_read dispatcher case. -/
def bulkMarkReadCase (a : BulkToolArgs) : ToolStep (List String × Bool) :=
  if emptyIds a.emailIds then
    .earlyError ⟨.invalidParams, "emailIds array is required and must not be empty"⟩
  else
    .backendCall (a.emailIds.getD [], a.read)

/-- The validation sequence of the bulk_move dispatcher case. -/
def bulkMoveCase (a : BulkToolArgs) : ToolStep (List String × String) :=
  if emptyIds a.emailIds then
    .earlyError ⟨.invalidParams, "emailIds array is required and must not be empty"⟩
  else if falsyStr a.targetMailboxId then
    .earlyError ⟨.invalidParams, "targetMailboxId is required"⟩
  else
    .backendCall (a.emailIds.getD [], a.targetMailboxId.getD "")

/-- The validation sequence of the bulk_delete dispatcher case. -/
def bulkDeleteCase (a : BulkToolArgs) : ToolStep (List String) :=
  if emptyIds a.emailIds then
    .earlyError ⟨.invalidParams, "emailIds array is required and must not be empty"⟩
  else
    .backendCall (a.emailIds.getD [])

/-- An error thrown inside a dispatcher case: either an already-structured
MCP error or a plain JavaScript error carrying a message. -/
inductive ThrownError
  | mcp (e : McpError)
  | js (message : String)
deriving Repr, DecidableEq

/-- The catch block of the download_attachment dispatcher case: whatever was
thrown by the backend call is replaced by one fixed sanitized message. -/
def downloadAttachmentCatch (_e : ThrownError) : McpError :=
  ⟨.internalError, "Attachment download failed. Verify emailId and attachmentId and try again."⟩

/-- The outer catch block of the dispatcher: MCP errors are rethrown
unchanged and every other error is wrapped with its message passed through. -/
def dispatcherCatch (e : ThrownError) : McpError :=
  match e with
  | .mcp m => m
  | .js msg => ⟨.internalError, "Tool execution failed: " ++ msg⟩

/-- Result object of one JMAP method response, by method kind; the email
element type is abstract. -/
inductive JmapResult (ε : Type)
  | queryIds (ids : List String)
  | getList (list : List ε) (notFound : List String)
  | setResult
deriving Repr

/-- One entry of the ordered `methodResponses` list of a JMAP response. -/
structure MethodResponse (ε : Type) where
  name : String
  result : JmapResult ε
  callId : String
deriving Repr

/-- The `list` field read from a result object. -/
def resultList {ε : Type} : JmapResult ε → Option (List ε)
  | .getList l _ => some l
  | _ => none

/-- The result extraction of `JmapClient.getEmails`:
`response.methodResponses[1][1].list`. -/
def getEmailsExtract {ε : Type} (resps : List (MethodResponse ε)) : Option (List ε) :=
  match resps.get? 1 with
  | none => none
  | some r => resultList r.result

/-- Positional alignment of a response list with a call list: same length,
and the entry at each position carries the method name and call id of the
call at that position. -/
def alignedWith {ε : Type} (calls : List MethodCall) (resps : List (MethodResponse ε)) :
    Prop :=
  resps.map (fun r => (r.name, r.callId)) = calls.map (fun c => (c.name, c.callId))

/-- Written from the wording of the specification, not from the source, for
comparison: the value after the final colon of a property line. -/
def specValueAfterFinalColon (line : List Char) : List Char :=
  (line.reverse.takeWhile (fun c => !(c == ':'))).reverse

/-- A decimal digit is not a hyphen. -/
theorem digitChar_ne_hyphen {c : Char} (h : isDigitChar c = true) : ('-' : Char) ≠ c := by
  intro he
  rw [← he] at h
  simp [isDigitChar] at h

/-- Stripping a list from the front of itself followed by anything succeeds
with the remainder. -/
theorem stripStart_append (p l : List Char) : stripStart p (p ++ l) = some l := by
  induction p with
  | nil => rfl
  | cons c cs ih => simp [stripStart, ih]

/-- A property line built from the property name, a semicolon separator and a
remainder is matched with exactly that remainder captured. -/
theorem matchPropLine_semi (prop rest : List Char) :
    matchPropLine prop (prop ++ ';' :: rest) = some rest := by
  rw [matchPropLine, stripStart_append]
  simp

/-- Dropping the first colon and everything before it from a text whose
colon-free part is followed by a colon yields the tail after that colon. -/
theorem afterFirstColon_append (params value : List Char) (hc : ':' ∉ params) :
    afterFirstColon (params ++ ':' :: value) = value := by
  rw [afterFirstColon, List.dropWhile_append]
  have hnil : params.dropWhile (fun c => !(c == ':')) = [] := by
    rw [List.dropWhile_eq_nil_iff]
    intro x hx
    simp only [Bool.not_eq_true']
    exact beq_eq_false_iff_ne.mpr (fun he => hc (he ▸ hx))
  rw [hnil]
  simp

/-- C2: for every input to ICS date normalization, an 8-digit all-numeric
value is reformatted to YYYY-MM-DD; a value of shape YYYYMMDDThhmmss with
optional trailing Z (15 to 16 characters, all digits outside the markers) is
reformatted to YYYY-MM-DDThh:mm:ss with the Z preserved; and any value that
already contains a hyphen is returned unchanged. -/
theorem formatICSDate_normalization :
    (∀ c1 c2 c3 c4 c5 c6 c7 c8 : Char,
      (∀ c ∈ ([c1, c2, c3, c4, c5, c6, c7, c8] : List Char), isDigitChar c = true) →
      formatICSDate [c1, c2, c3, c4, c5, c6, c7, c8]
        = [c1, c2, c3, c4, '-', c5, c6, '-', c7, c8]) ∧
    (∀ y1 y2 y3 y4 mo1 mo2 d1 d2 h1 h2 mi1 mi2 s1 s2 : Char, ∀ z : Bool,
      (∀ c ∈ ([y1, y2, y3, y4, mo1, mo2, d1, d2, h1, h2, mi1, mi2, s1, s2] : List Char),
        isDigitChar c = true) →
      formatICSDate ([y1, y2, y3, y4, mo1, mo2, d1, d2] ++ 'T' ::
          ([h1, h2, mi1, mi2, s1, s2] ++ if z then ['Z'] else []))
        = [y1, y2, y3, y4, '-', mo1, mo2, '-', d1, d2, 'T', h1, h2, ':', mi1, mi2, ':', s1, s2]
          ++ (if z then ['Z'] else [])) ∧
    (∀ cs : List Char, '-' ∈ cs → formatICSDate cs = cs) := by
  refine ⟨?_, ?_, ?_⟩
  · intro c1 c2 c3 c4 c5 c6 c7 c8 hall
    have hmem : ¬ ('-' ∈ ([c1, c2, c3, c4, c5, c6, c7, c8] : List Char)) := by
      intro hm
      exact digitChar_ne_hyphen (hall _ hm) rfl
    rw [formatICSDate]
    rw [if_neg (by simp), if_neg (by simpa using hmem), if_pos (by simp)]
    rfl
  · intro y1 y2 y3 y4 mo1 mo2 d1 d2 h1 h2 mi1 mi2 s1 s2 z hall
    have ha : ([y1, y2, y3, y4, mo1, mo2, d1, d2, h1, h2, mi1, mi2, s1, s2] : List Char).all
        isDigitChar = true := List.all_eq_true.mpr hall
    have hne : ∀ c ∈ ([y1, y2, y3, y4, mo1, mo2, d1, d2, h1, h2, mi1, mi2, s1, s2] :
        List Char), ('-' : Char) ≠ c := fun c hc => digitChar_ne_hyphen (hall c hc)
    simp only [List.mem_cons, List.not_mem_nil, or_false, forall_eq_or_imp, forall_eq] at hne
    obtain ⟨n1, n2, n3, n4, n5, n6, n7, n8, n9, n10, n11, n12, n13, n14⟩ := hne
    cases z with
    | false =>
      show formatICSDate [y1, y2, y3, y4, mo1, mo2, d1, d2, 'T', h1, h2, mi1, mi2, s1, s2] = _
      rw [formatICSDate]
      rw [if_neg (by simp),
        if_neg (by simp [n1, n2, n3, n4, n5, n6, n7, n8, n9, n10, n11, n12, n13, n14]),
        if_neg (by simp)]
      rw [matchICSDateTime]
      simp [ha]
    | true =>
      show formatICSDate [y1, y2, y3, y4, mo1, mo2, d1, d2, 'T', h1, h2, mi1, mi2, s1, s2, 'Z']
        = _
      rw [formatICSDate]
      rw [if_neg (by simp),
        if_neg (by simp [n1, n2, n3, n4, n5, n6, n7, n8, n9, n10, n11, n12, n13, n14]),
        if_neg (by simp)]
      rw [matchICSDateTime]
      simp [ha]
  · intro cs h
    rw [formatICSDate]
    rcases cs with _ | ⟨c, rest⟩
    · simp at h
    · rw [if_neg (by simp), if_pos (by simpa using h)]

/-- Witness for C2 at the three example inputs of the specification. -/
theorem formatICSDate_normalization_witness :
    formatICSDate "20260130".data = "2026-01-30".data ∧
    formatICSDate "20260130T090000Z".data = "2026-01-30T09:00:00Z".data ∧
    formatICSDate "2026-01-30".data = "2026-01-30".data := by
  refine ⟨?_, ?_, ?_⟩
  · exact formatICSDate_normalization.1 '2' '0' '2' '6' '0' '1' '3' '0' (by decide)
  · have h := formatICSDate_normalization.2.1 '2' '0' '2' '6' '0' '1' '3' '0'
      '0' '9' '0' '0' '0' '0' true (by decide)
    simpa using h
  · exact formatICSDate_normalization.2.2 "2026-01-30".data (by decide)

/-- C3 counterexample: on a DTSTART line whose parameter value itself
contains a colon, extraction returns the text after the first colon of the
remainder, which differs from the value after the final colon of the line. -/
theorem extractProp_date_final_colon_cex :
    extractProp ["DTSTART;X=a:b:20260130T090000".data] "DTSTART".data
      = some "b:20260130T090000".data ∧
    specValueAfterFinalColon "DTSTART;X=a:b:20260130T090000".data
      = "20260130T090000".data ∧
    ("b:20260130T090000".data : List Char) ≠ "20260130T090000".data := by
  refine ⟨by decide, by decide, by decide⟩

/-- C3 amended: for a date-typed property, extraction strips the parameter
text up to the first colon after the parameter separator and returns the
remainder of the line; when no parameter value contains a colon this is the
value after the final colon. -/
theorem extractProp_date_first_colon (prop params value : List Char)
    (post : List (List Char)) (hd : isDatePropName prop = true) (hc : ':' ∉ params) :
    extractProp ((prop ++ ';' :: (params ++ ':' :: value)) :: post) prop = some value := by
  rw [extractProp, List.findSome?_cons, matchPropLine_semi]
  simp only [if_pos hd]
  rw [afterFirstColon_append params value hc]

/-- Witness for the amended C3 at the TZID example of the specification. -/
theorem extractProp_date_first_colon_witness :
    extractProp ["DTSTART;TZID=Australia/Brisbane:20260130T090000".data] "DTSTART".data
      = some "20260130T090000".data := by
  have e : "DTSTART;TZID=Australia/Brisbane:20260130T090000".data
      = "DTSTART".data ++ ';' :: ("TZID=Australia/Brisbane".data ++ ':' ::
        "20260130T090000".data) := by decide
  rw [e]
  exact extractProp_date_first_colon "DTSTART".data "TZID=Australia/Brisbane".data
    "20260130T090000".data [] (by decide) (by decide)

/-- C4: on a folded SUMMARY value the extraction captures only the first
physical line, although the unfold substitution of `unfoldICS` itself would
merge the continuation line; the full unfolded text is never returned. -/
theorem extractProp_folding_lost :
    extractProp ["BEGIN:VEVENT".data, "SUMMARY:Hello".data, " World".data,
        "END:VEVENT".data] "SUMMARY".data = some "Hello".data ∧
    unfoldICS ("Hello".data ++ '\n' :: ' ' :: "World".data) = "HelloWorld".data ∧
    ("Hello".data : List Char) ≠ "HelloWorld".data := by
  refine ⟨by decide, by decide, by decide⟩

/-- C5: attendee extraction scans the ATTENDEE lines in order and
concatenates their contributions; a line whose capture has no mailto address
contributes no entry; a line whose capture has a mailto address contributes
the captured email together with the optional CN name, the name being the
text after CN= up to the next semicolon or colon. -/
theorem extractAttendees_scan :
    (∀ pre post : List (List Char),
      extractAttendees (pre ++ post) = extractAttendees pre ++ extractAttendees post) ∧
    (∀ line : List Char, findMailto line = none → attendeeOfLine line = none) ∧
    (∀ rest e : List Char, findMailto rest = some e →
      extractAttendees ["ATTENDEE".data ++ ';' :: rest] = [⟨e, findCN rest⟩]) ∧
    (∀ rest : List Char, findMailto rest = none →
      extractAttendees ["ATTENDEE".data ++ ';' :: rest] = []) := by
  refine ⟨?_, ?_, ?_, ?_⟩
  · intro pre post
    exact List.filterMap_append pre post _
  · intro line h
    rw [attendeeOfLine, h]
  · intro rest e h
    rw [extractAttendees]
    simp only [List.filterMap, matchPropLine_semi, attendeeOfLine, h]
  · intro rest h
    rw [extractAttendees]
    simp only [List.filterMap, matchPropLine_semi, attendeeOfLine, h]

/-- Witness for C5 at the Jane Doe example of the specification and at a line
with no mailto token. -/
theorem extractAttendees_scan_witness :
    extractAttendees ["ATTENDEE;CN=Jane Doe:mailto:jane@example.com".data]
      = [⟨"jane@example.com".data, some "Jane Doe".data⟩] ∧
    extractAttendees ["ATTENDEE;CN=Jane Doe:nobody".data] = [] := by
  constructor
  · have e : "ATTENDEE;CN=Jane Doe:mailto:jane@example.com".data
        = "ATTENDEE".data ++ ';' :: "CN=Jane Doe:mailto:jane@example.com".data := by decide
    rw [e, extractAttendees_scan.2.2.1 "CN=Jane Doe:mailto:jane@example.com".data
      "jane@example.com".data (by decide)]
    decide
  · have e : "ATTENDEE;CN=Jane Doe:nobody".data
        = "ATTENDEE".data ++ ';' :: "CN=Jane Doe:nobody".data := by decide
    rw [e]
    exact extractAttendees_scan.2.2.2 "CN=Jane Doe:nobody".data (by decide)

/-- C6: a send_email invocation whose arguments carry neither textBody nor
htmlBody stops in the validation stage with an invalid-params error and never
reaches the backend call, hence no session fetch, identity fetch or JMAP
request is issued. -/
theorem sendEmail_missing_body_no_network (a : SendEmailToolArgs)
    (ht : a.textBody = none) (hh : a.htmlBody = none) :
    (∃ m, sendEmailCase a = .earlyError ⟨.invalidParams, m⟩) ∧
    ∀ b, sendEmailCase a ≠ ToolStep.backendCall b := by
  have h3 : (falsyStr a.textBody && falsyStr a.htmlBody) = true := by
    rw [ht, hh]; rfl
  have hstep : ∃ m, sendEmailCase a = .earlyError ⟨.invalidParams, m⟩ := by
    rw [sendEmailCase]
    by_cases h1 : (a.toAddrs.isNone || (a.toAddrs.getD []).isEmpty) = true
    · rw [if_pos h1]; exact ⟨_, rfl⟩
    · rw [if_neg h1]
      by_cases h2 : falsyStr a.subject = true
      · rw [if_pos h2]; exact ⟨_, rfl⟩
      · rw [if_neg h2, if_pos h3]; exact ⟨_, rfl⟩
  refine ⟨hstep, ?_⟩
  intro b hb
  obtain ⟨m, hm⟩ := hstep
  rw [hm] at hb
  exact ToolStep.noConfusion hb

/-- Witness for C6 at a concrete argument object with valid recipients and
subject but no body. -/
theorem sendEmail_missing_body_no_network_witness :
    (∃ m, sendEmailCase ⟨some ["x@example.com"], none, none, none, none,
      some "Hi", none, none⟩ = .earlyError ⟨.invalidParams, m⟩) ∧
    ∀ b, sendEmailCase ⟨some ["x@example.com"], none, none, none, none,
      some "Hi", none, none⟩ ≠ ToolStep.backendCall b :=
  sendEmail_missing_body_no_network _ rfl rfl

/-- C7: each bulk dispatcher case rejects an empty id array with an
invalid-params error before the backend is invoked, and each non-empty bulk
request consists of exactly one Email/set call whose update map assigns the
identical mutation to every id of the array. -/
theorem bulk_ops_validation_and_batch :
    (∀ a : BulkToolArgs, a.emailIds = some [] →
      bulkMarkReadCase a
        = .earlyError ⟨.invalidParams, "emailIds array is required and must not be empty"⟩ ∧
      bulkMoveCase a
        = .earlyError ⟨.invalidParams, "emailIds array is required and must not be empty"⟩ ∧
      bulkDeleteCase a
        = .earlyError ⟨.invalidParams, "emailIds array is required and must not be empty"⟩) ∧
    (∀ (accountId : String) (ids : List String) (read : Bool), ids ≠ [] →
      (bulkMarkReadRequest accountId ids read).methodCalls
          = [⟨"Email/set", .set ⟨accountId, bulkMarkReadUpdates ids read⟩, "bulkUpdate"⟩] ∧
      (bulkMarkReadUpdates ids read).length = ids.length ∧
      ∀ id ∈ ids, (id, EmailUpdate.setKeywords (if read then [("$seen", true)] else []))
          ∈ bulkMarkReadUpdates ids read) ∧
    (∀ (accountId target : String) (ids : List String), ids ≠ [] →
      (bulkMoveRequest accountId ids target).methodCalls
          = [⟨"Email/set", .set ⟨accountId, bulkMoveUpdates ids target⟩, "bulkMove"⟩] ∧
      (bulkMoveUpdates ids target).length = ids.length ∧
      ∀ id ∈ ids, (id, EmailUpdate.setMailboxIds [(target, true)])
          ∈ bulkMoveUpdates ids target) ∧
    (∀ (accountId trash : String) (ids : List String), ids ≠ [] →
      (bulkDeleteRequest accountId ids trash).methodCalls
          = [⟨"Email/set", .set ⟨accountId, bulkMoveUpdates ids trash⟩, "bulkDelete"⟩] ∧
      ∀ id ∈ ids, (id, EmailUpdate.setMailboxIds [(trash, true)])
          ∈ bulkMoveUpdates ids trash) := by
  refine ⟨?_, ?_, ?_, ?_⟩
  · intro a h
    have he : emptyIds a.emailIds = true := by rw [h]; rfl
    refine ⟨?_, ?_, ?_⟩
    · rw [bulkMarkReadCase, if_pos he]
    · rw [bulkMoveCase, if_pos he]
    · rw [bulkDeleteCase, if_pos he]
  · intro accountId ids read _
    refine ⟨rfl, by rw [bulkMarkReadUpdates, List.length_map], ?_⟩
    intro id hid
    exact List.mem_map_of_mem _ hid
  · intro accountId target ids _
    refine ⟨rfl, by rw [bulkMoveUpdates, List.length_map], ?_⟩
    intro id hid
    exact List.mem_map_of_mem _ hid
  · intro accountId trash ids _
    refine ⟨rfl, ?_⟩
    intro id hid
    exact List.mem_map_of_mem _ hid

/-- Witness for C7 at an empty array and at a two-element array. -/
theorem bulk_ops_validation_and_batch_witness :
    bulkMarkReadCase ⟨some [], true, some "mb"⟩
      = .earlyError ⟨.invalidParams, "emailIds array is required and must not be empty"⟩ ∧
    (bulkMarkReadRequest "acc" ["e1", "e2"] true).methodCalls
      = [⟨"Email/set", .set ⟨"acc", bulkMarkReadUpdates ["e1", "e2"] true⟩, "bulkUpdate"⟩] ∧
    ("e2", EmailUpdate.setMailboxIds [("target", true)])
      ∈ bulkMoveUpdates ["e1", "e2"] "target" := by
  refine ⟨(bulk_ops_validation_and_batch.1 ⟨some [], true, some "mb"⟩ rfl).1,
    (bulk_ops_validation_and_batch.2.1 "acc" ["e1", "e2"] true (by decide)).1,
    (bulk_ops_validation_and_batch.2.2.1 "acc" "target" ["e1", "e2"] (by decide)).2.2
      "e2" (by decide)⟩

/-- C8 counterexample: getEmails transmits the caller limit unchanged, so at
caller limit 101 the transmitted limit exceeds both cited ceilings, while
getRecentEmails at the same caller limit transmits the clamped 50. -/
theorem getEmails_limit_not_clamped_cex :
    transmittedLimit (getEmailsRequest "account" none 101) = some 101 ∧
    transmittedLimit (getRecentEmailsRequest "account" "inboxId" 101) = some 50 ∧
    ¬ ((101 : Int) ≤ 100) := by
  refine ⟨rfl, by decide, by decide⟩

/-- C8 amended: getRecentEmails and advancedSearch clamp the caller limit to
the hard ceilings 50 and 100 before transmission and never exceed them, while
getEmails transmits the caller limit unchanged with no ceiling. -/
theorem listing_query_limits :
    (∀ (accountId : String) (mailboxId : Option String) (limit : Int),
      transmittedLimit (getEmailsRequest accountId mailboxId limit) = some limit) ∧
    (∀ (accountId targetMailboxId : String) (limit : Int),
      transmittedLimit (getRecentEmailsRequest accountId targetMailboxId limit)
          = some (min limit 50) ∧ min limit 50 ≤ 50) ∧
    (∀ (accountId : String) (p : AdvSearchParams),
      transmittedLimit (advancedSearchRequest accountId p)
          = some (advancedSearchQueryLimit p.limit) ∧
        advancedSearchQueryLimit p.limit ≤ 100) := by
  refine ⟨fun _ _ _ => rfl, fun _ _ limit => ⟨rfl, min_le_right limit 50⟩,
    fun _ p => ⟨rfl, min_le_right _ 100⟩⟩

/-- C9: the download_attachment catch replaces whatever the backend threw by
one fixed sanitized message, independent of the thrown error, while the outer
dispatcher catch rethrows structured errors unchanged and wraps any other
thrown error into one user-facing error whose message passes the underlying
message through. -/
theorem error_sanitization_and_wrapping :
    (∀ e : ThrownError, downloadAttachmentCatch e = ⟨.internalError,
      "Attachment download failed. Verify emailId and attachmentId and try again."⟩) ∧
    (∀ e1 e2 : ThrownError, downloadAttachmentCatch e1 = downloadAttachmentCatch e2) ∧
    (∀ e : ThrownError,
      dispatcherCatch (.mcp (downloadAttachmentCatch e)) = downloadAttachmentCatch e) ∧
    (∀ msg : String,
      dispatcherCatch (.js msg) = ⟨.internalError, "Tool execution failed: " ++ msg⟩) ∧
    (∀ m : McpError, dispatcherCatch (.mcp m) = m) := by
  exact ⟨fun _ => rfl, fun _ _ => rfl, fun _ => rfl, fun _ => rfl, fun _ => rfl⟩

/-- C1: the getEmails batch is the two-call list query-then-get, the Email/get
call back-references the query call by its call id, and for every response
list aligned positionally with the call list the client extraction reads the
list field of the result at position 1, the position of the Email/get call. -/
theorem getEmails_response_alignment {ε : Type} (accountId : String)
    (mailboxId : Option String) (limit : Int) (resps : List (MethodResponse ε))
    (h : alignedWith (getEmailsRequest accountId mailboxId limit).methodCalls resps) :
    (getEmailsRequest accountId mailboxId limit).methodCalls.length = 2 ∧
    (∃ q g, (getEmailsRequest accountId mailboxId limit).methodCalls = [q, g] ∧
      q.name = "Email/query" ∧ q.callId = "query" ∧
      g.name = "Email/get" ∧ g.callId = "emails" ∧
      (match g.args with | .get ga => ga.idsRef | _ => none)
        = some ⟨q.callId, q.name, "/ids"⟩) ∧
    ∃ r, resps.get? 1 = some r ∧ r.name = "Email/get" ∧ r.callId = "emails" ∧
      getEmailsExtract resps = resultList r.result := by
  have hcalls : (getEmailsRequest accountId mailboxId limit).methodCalls.map
      (fun c => (c.name, c.callId)) = [("Email/query", "query"), ("Email/get", "emails")] := rfl
  rw [alignedWith, hcalls] at h
  refine ⟨rfl, ⟨_, _, rfl, rfl, rfl, rfl, rfl, rfl⟩, ?_⟩
  rcases resps with _ | ⟨r0, rest⟩
  · simp at h
  rcases rest with _ | ⟨r1, rest2⟩
  · simp at h
  rcases rest2 with _ | ⟨r2, rest3⟩
  · simp only [List.map_cons, List.map_nil, List.cons.injEq, Prod.mk.injEq] at h
    obtain ⟨⟨hn0, hc0⟩, ⟨hn1, hc1⟩, -⟩ := h
    exact ⟨r1, rfl, hn1, hc1, rfl⟩
  · simp at h

/-- Witness for C1 at a concrete aligned response list. -/
theorem getEmails_response_alignment_witness :
    ∃ r, ([⟨"Email/query", JmapResult.queryIds ["m1"], "query"⟩,
        ⟨"Email/get", JmapResult.getList ([()] : List Unit) [], "emails"⟩] :
      List (MethodResponse Unit)).get? 1 = some r ∧
      r.name = "Email/get" ∧ r.callId = "emails" ∧
      getEmailsExtract [⟨"Email/query", JmapResult.queryIds ["m1"], "query"⟩,
        ⟨"Email/get", JmapResult.getList ([()] : List Unit) [], "emails"⟩]
        = resultList r.result :=
  (getEmails_response_alignment "account" none 20
    [⟨"Email/query", JmapResult.queryIds ["m1"], "query"⟩,
     ⟨"Email/get", JmapResult.getList ([()] : List Unit) [], "emails"⟩] rfl).2.2

/-- C10: the events of all targeted calendars are merged, the merged list is
sorted ascending by the start key, and the limit is applied only afterwards,
so the returned list is sorted, has the length of the merged list clamped to
the limit, and consists of events whose start keys are no later than those of
every merged event left out. -/
theorem getCalendarEvents_sorted_and_limited
    (calendarObjects : List (List (List (List Char)))) (limit : Nat)
    (startKey : CalendarEvent → Int) :
    List.Sorted (fun a b => startKey a ≤ startKey b)
      (getCalendarEventsModel calendarObjects limit startKey) ∧
    (getCalendarEventsModel calendarObjects limit startKey).length
      = min limit ((calendarObjects.map (fun objs => objs.filterMap parseICS)).flatten).length ∧
    ∃ rest, ((calendarObjects.map (fun objs => objs.filterMap parseICS)).flatten).Perm
        (getCalendarEventsModel calendarObjects limit startKey ++ rest) ∧
      ∀ a ∈ getCalendarEventsModel calendarObjects limit startKey, ∀ b ∈ rest,
        startKey a ≤ startKey b := by
  classical
  set merged := (calendarObjects.map (fun objs => objs.filterMap parseICS)).flatten with hm
  set le : CalendarEvent → CalendarEvent → Bool :=
    fun a b => decide (startKey a ≤ startKey b) with hle
  have hmodel : getCalendarEventsModel calendarObjects limit startKey
      = (merged.mergeSort le).take limit := rfl
  have htrans : ∀ a b c, le a b = true → le b c = true → le a c = true := by
    intro a b c hab hbc
    simp only [hle, decide_eq_true_eq] at hab hbc ⊢
    exact le_trans hab hbc
  have htot : ∀ a b, (le a b || le b a) = true := by
    intro a b
    simp only [hle, Bool.or_eq_true, decide_eq_true_eq]
    exact le_total _ _
  have hpw : List.Pairwise (fun a b => le a b = true) (merged.mergeSort le) :=
    List.sorted_mergeSort htrans htot merged
  have hperm : (merged.mergeSort le).Perm merged := List.mergeSort_perm merged le
  have hsplit : (merged.mergeSort le).take limit ++ (merged.mergeSort le).drop limit
      = merged.mergeSort le := List.take_append_drop limit (merged.mergeSort le)
  refine ⟨?_, ?_, ?_⟩
  · rw [hmodel]
    have := List.Pairwise.sublist (List.take_sublist limit (merged.mergeSort le)) hpw
    exact this.imp (fun hab => by simpa [hle, decide_eq_true_eq] using hab)
  · rw [hmodel, List.length_take, hperm.length_eq]
  · refine ⟨(merged.mergeSort le).drop limit, ?_, ?_⟩
    · rw [hmodel, hsplit]
      exact hperm.symm
    · rw [hmodel]
      have hpw2 : List.Pairwise (fun a b => le a b = true)
          ((merged.mergeSort le).take limit ++ (merged.mergeSort le).drop limit) := by
        rw [hsplit]; exact hpw
      have hcross := (List.pairwise_append.mp hpw2).2.2
      intro a ha b hb
      have h := hcross a ha b hb
      simpa [hle, decide_eq_true_eq] using h

/-- Witness for the amended C8 at caller limit 70 for each operation. -/
theorem listing_query_limits_witness :
    transmittedLimit (getEmailsRequest "account" (some "mb") 70) = some 70 ∧
    transmittedLimit (getRecentEmailsRequest "account" "mb" 70) = some (min 70 50) ∧
    transmittedLimit (advancedSearchRequest "account"
        ⟨none, none, none, none, none, none, none, none, none, some 70⟩)
      = some (advancedSearchQueryLimit (some 70)) :=
  ⟨listing_query_limits.1 "account" (some "mb") 70,
   (listing_query_limits.2.1 "account" "mb" 70).1,
   (listing_query_limits.2.2 "account"
      ⟨none, none, none, none, none, none, none, none, none, some 70⟩).1⟩

/-- Witness for C9 at a concrete thrown error on each path. -/
theorem error_sanitization_and_wrapping_witness :
    downloadAttachmentCatch (.js "ENOTFOUND blob 42 secret.pdf") = ⟨.internalError,
      "Attachment download failed. Verify emailId and attachmentId and try again."⟩ ∧
    dispatcherCatch (.js "boom") = ⟨.internalError, "Tool execution failed: boom"⟩ :=
  ⟨error_sanitization_and_wrapping.1 (.js "ENOTFOUND blob 42 secret.pdf"),
   error_sanitization_and_wrapping.2.2.2.1 "boom"⟩

/-- Witness for C10 at one concrete calendar object list. -/
theorem getCalendarEvents_sorted_and_limited_witness :
    (getCalendarEventsModel [[["BEGIN:VEVENT".data, "UID:e1".data, "END:VEVENT".data]]] 1
        (fun _ => 0)).length
      = min 1 (([[["BEGIN:VEVENT".data, "UID:e1".data, "END:VEVENT".data]]].map
          (fun objs => objs.filterMap parseICS)).flatten).length :=
  (getCalendarEvents_sorted_and_limited
    [[["BEGIN:VEVENT".data, "UID:e1".data, "END:VEVENT".data]]] 1 (fun _ => 0)).2.1
